import Mathlib

/-!
Shallow embedding of the `_laplace` crate (src/main.rs, src/fast.rs).

Modelling decisions:

* The relaxed floating-point scalar `fff` wraps an `f64`.  For the claims
  about construction we model the raw double as `F64`: either a finite
  value (carried as a rational) or one of the non-finite values NaN, +Inf,
  -Inf.  For the arithmetic claims about the residual kernel the values are
  modelled as exact rationals `ℚ`: the crate's relaxed (`fadd_fast` etc.)
  arithmetic explicitly permits reassociation and only promises results up
  to a relaxed-arithmetic tolerance, so exact field arithmetic is the
  idealised semantics the algebraic statements are about.

* `usize` subtraction is modelled by `sub?`, which fails on underflow
  (debug builds panic there; release builds wrap around, which then indexes
  far out of bounds).  Unchecked slice indexing (`Arr`, `get_unchecked`) is
  modelled by `arrIdx`, which fails when the index is out of bounds
  (undefined behaviour in the original).  A failed computation is `none`;
  `_calculate_residual_squared` returns `some r` exactly when every
  assertion passes, no index subtraction underflows and every buffer
  access is in bounds.

* The `assert!` statements at the top of `_calculate_residual_squared` are
  modelled as a guard returning `none` (a fatal panic) when violated.  The
  `debug_assert!` in `From<f64> for fff` is modelled as a checking
  construction.
-/

/-- Raw `f64`, abstracted: either a finite value or a non-finite one. -/
inductive F64 where
  | finite : ℚ → F64
  | nan : F64
  | posInf : F64
  | negInf : F64
deriving DecidableEq

/-- `f64::is_finite`. -/
def F64.isFinite : F64 → Bool
  | .finite _ => true
  | _ => false

/-- The crate's relaxed scalar `pub struct fff(pub f64)` (src/fast.rs).
The single public field is the raw double; the tuple constructor `fff(v)`
is the structure constructor `fff.mk`. -/
structure fff where
  val : F64
deriving DecidableEq

/-- `impl From<f64> for fff` (src/fast.rs lines 169-175): the conversion
runs `debug_assert!(v.is_finite())` before wrapping the value; the failing
assertion is modelled as `none`. -/
def fff.fromF64 (v : F64) : Option fff :=
  if v.isFinite then some (fff.mk v) else none

/-- `pub fn square<T>(i: T) -> T { i*i }` (src/main.rs lines 10-15). -/
def square {α : Type} [Mul α] (i : α) : α := i * i

/-- `pub struct Laplace2dMatrix` (src/main.rs lines 17-25); the three
stencil coefficients are modelled as exact rationals. -/
structure Laplace2dMatrix where
  n_x : ℕ
  n_y : ℕ
  n : ℕ
  diag : ℚ
  tri_diag : ℚ
  side_diag : ℚ
deriving DecidableEq

/-- `Laplace2dMatrix::rectangular` (src/main.rs lines 28-37). -/
def Laplace2dMatrix.rectangular (n_x n_y : ℕ) : Laplace2dMatrix :=
  { n_x := n_x
    n_y := n_y
    n := n_x * n_y
    diag := (-2 : ℚ) * ((square (n_x + 1) + square (n_y + 1) : ℕ) : ℚ)
    tri_diag := ((square (n_x + 1) : ℕ) : ℚ)
    side_diag := ((square (n_y + 1) : ℕ) : ℚ) }

/-- `Laplace2dMatrix::quadratic` (src/main.rs lines 39-41). -/
def Laplace2dMatrix.quadratic (n_xy : ℕ) : Laplace2dMatrix :=
  Laplace2dMatrix.rectangular n_xy n_xy

/-- `usize` subtraction: `none` on underflow (panic in debug builds, a
wrap-around far out of bounds in release builds). -/
def sub? (a b : ℕ) : Option ℕ :=
  if b ≤ a then some (a - b) else none

/-- Indexing through `Arr` (src/main.rs lines 44-52), i.e.
`get_unchecked`: undefined behaviour out of bounds, modelled as `none`. -/
def arrIdx (a : List ℚ) (i : ℕ) : Option ℚ := a.get? i

/-- Total mathematical indexing (defaulting to 0), used on the
specification side. -/
def geti (a : List ℚ) (i : ℕ) : ℚ := a.getD i 0

/-- The Rust range `a .. b` (empty when `b ≤ a`). -/
def rustRange (a b : ℕ) : List ℕ := List.range' a (b - a)

/-- The Rust iterator `(a .. b).step_by(s)`: `a, a+s, ...` while `< b`. -/
def stepRange (a b s : ℕ) : List ℕ :=
  (List.range ((b - a + s - 1) / s)).map (fun k => a + k * s)

/-- Sum an option-valued body over an index list, failing as soon as the
body fails (models a loop accumulating into `r2`). -/
def optSum (f : ℕ → Option ℚ) : List ℕ → Option ℚ
  | [] => some 0
  | i :: is => do
    let v ← f i
    let rest ← optSum f is
    pure (v + rest)

/-- src/main.rs line 84: the contribution of the first point of the first
row: `square(-b[1-1] + x[1-1]*l.diag + x[2-1]*l.tri_diag +
x[1+l.n_x-1]*l.side_diag)`. -/
def term_r1_first (l : Laplace2dMatrix) (x b : List ℚ) : Option ℚ := do
  let jb ← sub? 1 1
  let bv ← arrIdx b jb
  let jc ← sub? 1 1
  let xc ← arrIdx x jc
  let jr ← sub? 2 1
  let xr ← arrIdx x jr
  let jd ← sub? (1 + l.n_x) 1
  let xd ← arrIdx x jd
  pure (square (-bv + xc * l.diag + xr * l.tri_diag + xd * l.side_diag))

/-- src/main.rs line 86: the loop body for `i in 2 .. l.n_x` (interior of
the first row). -/
def term_r1_mid (l : Laplace2dMatrix) (x b : List ℚ) (i : ℕ) : Option ℚ := do
  let jb ← sub? i 1
  let bv ← arrIdx b jb
  let jc ← sub? i 1
  let xc ← arrIdx x jc
  let jr ← sub? (i + 1) 1
  let xr ← arrIdx x jr
  let t ← sub? i 1
  let jl ← sub? t 1
  let xl ← arrIdx x jl
  let jd ← sub? (i + l.n_x) 1
  let xd ← arrIdx x jd
  pure (square (-bv + xc * l.diag + xr * l.tri_diag + xl * l.tri_diag + xd * l.side_diag))

/-- src/main.rs line 88: the last point of the first row. -/
def term_r1_last (l : Laplace2dMatrix) (x b : List ℚ) : Option ℚ := do
  let jb ← sub? l.n_x 1
  let bv ← arrIdx b jb
  let jc ← sub? l.n_x 1
  let xc ← arrIdx x jc
  let t ← sub? l.n_x 1
  let jl ← sub? t 1
  let xl ← arrIdx x jl
  let jd ← sub? (l.n_x + l.n_x) 1
  let xd ← arrIdx x jd
  pure (square (-bv + xc * l.diag + xl * l.tri_diag + xd * l.side_diag))

/-- src/main.rs line 91: the first point of an interior row starting at
`outer_base`. -/
def term_mid_first (l : Laplace2dMatrix) (x b : List ℚ) (ob : ℕ) : Option ℚ := do
  let jb ← sub? (ob + 1) 1
  let bv ← arrIdx b jb
  let jc ← sub? (ob + 1) 1
  let xc ← arrIdx x jc
  let jr ← sub? (ob + 2) 1
  let xr ← arrIdx x jr
  let t ← sub? (ob + 1) l.n_x
  let ju ← sub? t 1
  let xu ← arrIdx x ju
  let jd ← sub? (ob + 1 + l.n_x) 1
  let xd ← arrIdx x jd
  pure (square (-bv + xc * l.diag + xr * l.tri_diag + xu * l.side_diag + xd * l.side_diag))

/-- src/main.rs line 93: the loop body for `i in 2 .. l.n_x` inside an
interior row starting at `outer_base` (the full five-point stencil). -/
def term_mid_mid (l : Laplace2dMatrix) (x b : List ℚ) (ob i : ℕ) : Option ℚ := do
  let jb ← sub? (ob + i) 1
  let bv ← arrIdx b jb
  let jc ← sub? (ob + i) 1
  let xc ← arrIdx x jc
  let jr ← sub? (ob + i + 1) 1
  let xr ← arrIdx x jr
  let t1 ← sub? (ob + i) 1
  let jl ← sub? t1 1
  let xl ← arrIdx x jl
  let jd ← sub? (ob + i + l.n_x) 1
  let xd ← arrIdx x jd
  let t2 ← sub? (ob + i) l.n_x
  let ju ← sub? t2 1
  let xu ← arrIdx x ju
  pure (square (-bv + xc * l.diag + xr * l.tri_diag + xl * l.tri_diag + xd * l.side_diag + xu * l.side_diag))

/-- src/main.rs line 95: the last point of an interior row starting at
`outer_base`. -/
def term_mid_last (l : Laplace2dMatrix) (x b : List ℚ) (ob : ℕ) : Option ℚ := do
  let jb ← sub? (ob + l.n_x) 1
  let bv ← arrIdx b jb
  let jc ← sub? (ob + l.n_x) 1
  let xc ← arrIdx x jc
  let t ← sub? (ob + l.n_x) 1
  let jl ← sub? t 1
  let xl ← arrIdx x jl
  let jd ← sub? (ob + l.n_x + l.n_x) 1
  let xd ← arrIdx x jd
  let ju ← sub? ob 1
  let xu ← arrIdx x ju
  pure (square (-bv + xc * l.diag + xl * l.tri_diag + xd * l.side_diag + xu * l.side_diag))

/-- src/main.rs line 98: the first point of the last row. -/
def term_rl_first (l : Laplace2dMatrix) (x b : List ℚ) : Option ℚ := do
  let t1 ← sub? l.n l.n_x
  let jb ← sub? (t1 + 1) 1
  let bv ← arrIdx b jb
  let t2 ← sub? l.n l.n_x
  let jc ← sub? (t2 + 1) 1
  let xc ← arrIdx x jc
  let t3 ← sub? l.n l.n_x
  let jr ← sub? (t3 + 2) 1
  let xr ← arrIdx x jr
  let t4 ← sub? l.n l.n_x
  let t5 ← sub? t4 l.n_x
  let ju ← sub? (t5 + 1) 1
  let xu ← arrIdx x ju
  pure (square (-bv + xc * l.diag + xr * l.tri_diag + xu * l.side_diag))

/-- src/main.rs line 100: the loop body for `i in l.n-l.n_x+2 .. l.n`
(interior of the last row). -/
def term_rl_mid (l : Laplace2dMatrix) (x b : List ℚ) (i : ℕ) : Option ℚ := do
  let jb ← sub? i 1
  let bv ← arrIdx b jb
  let jc ← sub? i 1
  let xc ← arrIdx x jc
  let jr ← sub? (i + 1) 1
  let xr ← arrIdx x jr
  let t1 ← sub? i 1
  let jl ← sub? t1 1
  let xl ← arrIdx x jl
  let t2 ← sub? i l.n_x
  let ju ← sub? t2 1
  let xu ← arrIdx x ju
  pure (square (-bv + xc * l.diag + xr * l.tri_diag + xl * l.tri_diag + xu * l.side_diag))

/-- src/main.rs line 102: the last point of the last row. -/
def term_rl_last (l : Laplace2dMatrix) (x b : List ℚ) : Option ℚ := do
  let jb ← sub? l.n 1
  let bv ← arrIdx b jb
  let jc ← sub? l.n 1
  let xc ← arrIdx x jc
  let t1 ← sub? l.n 1
  let jl ← sub? t1 1
  let xl ← arrIdx x jl
  let ju ← sub? l.n l.n_x
  let xu2 ← sub? ju 1
  let xu ← arrIdx x xu2
  pure (square (-bv + xc * l.diag + xl * l.tri_diag + xu * l.side_diag))

/-- The body of the loop over `outer_base` (src/main.rs lines 90-96): one
interior row's three contributions, in source order. -/
def midRowSum (l : Laplace2dMatrix) (x b : List ℚ) (ob : ℕ) : Option ℚ := do
  let t1 ← term_mid_first l x b ob
  let t2 ← optSum (term_mid_mid l x b ob) (rustRange 2 l.n_x)
  let t3 ← term_mid_last l x b ob
  pure (t1 + t2 + t3)

/-- `_calculate_residual_squared` (src/main.rs lines 68-106): the four
`assert!`s, then the nine-case stencil sweep, then division by `n`. -/
def _calculate_residual_squared (l : Laplace2dMatrix) (x b : List ℚ) : Option ℚ :=
  if l.n = x.length ∧ l.n = b.length ∧ l.n = l.n_x * l.n_y ∧ 0 < l.n then do
    let t1 ← term_r1_first l x b
    let t2 ← optSum (term_r1_mid l x b) (rustRange 2 l.n_x)
    let t3 ← term_r1_last l x b
    let ny2 ← sub? l.n_y 2
    let t4 ← optSum (midRowSum l x b) (stepRange l.n_x (l.n_x * ny2 + 1) l.n_x)
    let t5 ← term_rl_first l x b
    let nx1 ← sub? l.n l.n_x
    let t6 ← optSum (term_rl_mid l x b) (rustRange (nx1 + 2) l.n)
    let t7 ← term_rl_last l x b
    pure ((t1 + t2 + t3 + t4 + t5 + t6 + t7) / (l.n : ℚ))
  else none

/-- `calculate_residual_squared` (src/main.rs lines 62-65). -/
def calculate_residual_squared (l : Laplace2dMatrix) (x b : List ℚ) : Option ℚ :=
  _calculate_residual_squared l x b

/-- `calculate_residual_squared_quadratic` (src/main.rs lines 56-59). -/
def calculate_residual_squared_quadratic (n_xy : ℕ) (x b : List ℚ) : Option ℚ :=
  _calculate_residual_squared (Laplace2dMatrix.quadratic n_xy) x b

/-- Specification-side definition, following the claim text: `(Lx)ⱼ` is
`x[j]*diag`, plus `x[j-1]*tri_diag` when `j` is not in column 0 of its row,
`x[j+1]*tri_diag` when `j` is not in column `n_x-1`, `x[j-n_x]*side_diag`
when `j` is not in the first row, and `x[j+n_x]*side_diag` when `j` is not
in the last row (column = `j % n_x`, row = `j / n_x`). -/
def refLx (l : Laplace2dMatrix) (x : List ℚ) (j : ℕ) : ℚ :=
  geti x j * l.diag
    + (if j % l.n_x ≠ 0 then geti x (j - 1) * l.tri_diag else 0)
    + (if j % l.n_x ≠ l.n_x - 1 then geti x (j + 1) * l.tri_diag else 0)
    + (if j / l.n_x ≠ 0 then geti x (j - l.n_x) * l.side_diag else 0)
    + (if j / l.n_x ≠ l.n_y - 1 then geti x (j + l.n_x) * l.side_diag else 0)

/-- Specification-side residual: `(1/n) * Σⱼ ((Lx)ⱼ - bⱼ)²`. -/
def referenceResidual (l : Laplace2dMatrix) (x b : List ℚ) : ℚ :=
  (∑ j in Finset.range l.n, square (refLx l x j - geti b j)) / (l.n : ℚ)

/-! ### Helper lemmas for evaluating the kernel -/

lemma sub?_eq {a b : ℕ} (h : b ≤ a) : sub? a b = some (a - b) := by
  simp [sub?, h]

lemma arrIdx_eq {a : List ℚ} {i : ℕ} (h : i < a.length) :
    arrIdx a i = some (geti a i) := by
  simp [arrIdx, geti, List.get?_eq_getElem?, List.getElem?_eq_getElem h,
    List.getD_eq_getElem?_getD]

lemma optSum_cons (f : ℕ → Option ℚ) (i : ℕ) (is : List ℕ) :
    optSum f (i :: is) =
      (f i).bind fun v => (optSum f is).bind fun rest => some (v + rest) := by
  simp only [optSum, Option.bind_eq_bind, Option.pure_def]

lemma optSum_eq_map {f : ℕ → Option ℚ} {g : ℕ → ℚ} :
    ∀ {is : List ℕ}, (∀ i ∈ is, f i = some (g i)) →
      optSum f is = some ((is.map g).sum)
  | [], _ => rfl
  | i :: is, h => by
    rw [optSum_cons, h i (List.mem_cons_self i is),
      optSum_eq_map (fun j hj => h j (List.mem_cons_of_mem i hj))]
    simp

lemma range'_map_sum (f : ℕ → ℚ) :
    ∀ (k a : ℕ), ((List.range' a k).map f).sum = ∑ c in Finset.range k, f (a + c)
  | 0, a => by simp
  | k + 1, a => by
    rw [List.range'_succ, Finset.sum_range_succ']
    simp only [List.map_cons, List.sum_cons, range'_map_sum f k (a + 1)]
    have h1 : ∀ c : ℕ, a + 1 + c = a + (c + 1) := fun c => by omega
    simp only [h1, add_zero]
    ring

lemma range_map_sum (f : ℕ → ℚ) (t : ℕ) :
    ((List.range t).map f).sum = ∑ k in Finset.range t, f k := by
  rw [List.range_eq_range', range'_map_sum]
  simp

lemma mem_range1 {m a k : ℕ} : m ∈ List.range' a k ↔ a ≤ m ∧ m < a + k := by
  rw [List.mem_range']
  constructor
  · rintro ⟨i, hi, rfl⟩
    omega
  · intro ⟨h1, h2⟩
    exact ⟨m - a, by omega, by omega⟩

lemma optSum_range' {f : ℕ → Option ℚ} {g : ℕ → ℚ} {a k : ℕ}
    (h : ∀ i, a ≤ i → i < a + k → f i = some (g i)) :
    optSum f (List.range' a k) = some (∑ c in Finset.range k, g (a + c)) := by
  rw [optSum_eq_map (fun i hi => h i (mem_range1.mp hi).1 (mem_range1.mp hi).2),
    range'_map_sum]

lemma optSum_map (f : ℕ → Option ℚ) (h : ℕ → ℕ) :
    ∀ (is : List ℕ), optSum f (is.map h) = optSum (fun k => f (h k)) is
  | [] => rfl
  | i :: is => by
    rw [List.map_cons, optSum_cons, optSum_cons, optSum_map f h is]

lemma optSum_range_map {f : ℕ → Option ℚ} {g : ℕ → ℚ} {h : ℕ → ℕ} {t : ℕ}
    (hev : ∀ k, k < t → f (h k) = some (g k)) :
    optSum f ((List.range t).map h) = some (∑ k in Finset.range t, g k) := by
  rw [optSum_map, optSum_eq_map (fun k hk => hev k (List.mem_range.mp hk)),
    range_map_sum]

lemma stepRange_eq {n_x t : ℕ} (hx : 1 ≤ n_x) :
    stepRange n_x (n_x * t + 1) n_x =
      (List.range t).map (fun k => n_x + k * n_x) := by
  rw [stepRange]
  congr 1
  rcases t with _ | t
  · rw [Nat.mul_zero]
    have h1 : 0 + 1 - n_x + n_x - 1 = n_x - 1 := by omega
    rw [h1, Nat.div_eq_of_lt (by omega)]
  · have h2 : n_x * (t + 1) = n_x * t + n_x := Nat.mul_succ n_x t
    rw [h2]
    have h3 : n_x * t + n_x + 1 - n_x + n_x - 1 = n_x * t + n_x := by omega
    rw [h3]
    have h4 : n_x * t + n_x = n_x * (t + 1) := by ring
    rw [h4, Nat.mul_div_cancel_left _ (by omega)]

lemma row_split (g : ℕ → ℚ) (base n_x : ℕ) (h : 2 ≤ n_x) :
    ∑ c in Finset.range n_x, g (base + c) =
      g base + (∑ c in Finset.range (n_x - 2), g (base + c + 1)) +
        g (base + n_x - 1) := by
  obtain ⟨m, rfl⟩ : ∃ m, n_x = m + 2 := ⟨n_x - 2, by omega⟩
  rw [Finset.sum_range_succ, Finset.sum_range_succ']
  have h1 : ∀ c : ℕ, base + (c + 1) = base + c + 1 := fun c => by omega
  have h2 : m + 2 - 2 = m := by omega
  have h3 : base + (m + 2) - 1 = base + m + 1 := by omega
  have h4 : base + (m + 1) = base + m + 1 := by omega
  have h5 : base + m + 1 + 1 - 1 = base + m + 1 := by omega
  simp only [h1, h2, h3, h4, h5, add_zero]
  ring

lemma grid_split (g : ℕ → ℚ) (n_x : ℕ) :
    ∀ n_y, ∑ j in Finset.range (n_x * n_y), g j =
      ∑ r in Finset.range n_y, ∑ c in Finset.range n_x, g (r * n_x + c)
  | 0 => by simp
  | n_y + 1 => by
    rw [Nat.mul_succ, Finset.sum_range_add, Finset.sum_range_succ,
      grid_split g n_x n_y]
    have h1 : ∀ c : ℕ, n_x * n_y + c = n_y * n_x + c := fun c => by ring_nf
    simp only [h1]

lemma sum_grid_decomp (g : ℕ → ℚ) (n_x n_y : ℕ) (hx : 2 ≤ n_x) (hy : 2 ≤ n_y) :
    ∑ j in Finset.range (n_x * n_y), g j =
      (g 0 + (∑ c in Finset.range (n_x - 2), g (c + 1)) + g (n_x - 1))
      + (∑ r in Finset.range (n_y - 2),
          (g ((r + 1) * n_x)
            + (∑ c in Finset.range (n_x - 2), g ((r + 1) * n_x + c + 1))
            + g ((r + 1) * n_x + n_x - 1)))
      + (g ((n_y - 1) * n_x)
          + (∑ c in Finset.range (n_x - 2), g ((n_y - 1) * n_x + c + 1))
          + g ((n_y - 1) * n_x + n_x - 1)) := by
  rw [grid_split]
  obtain ⟨m, rfl⟩ : ∃ m, n_y = m + 2 := ⟨n_y - 2, by omega⟩
  rw [Finset.sum_range_succ, Finset.sum_range_succ']
  have h2 : m + 2 - 2 = m := by omega
  have h3 : m + 2 - 1 = m + 1 := by omega
  simp only [h2, h3]
  rw [row_split g (0 * n_x) n_x hx, row_split g ((m + 1) * n_x) n_x hx]
  have h4 : ∀ r ∈ Finset.range m,
      ∑ c in Finset.range n_x, g ((r + 1) * n_x + c) =
        g ((r + 1) * n_x)
          + (∑ c in Finset.range (n_x - 2), g ((r + 1) * n_x + c + 1))
          + g ((r + 1) * n_x + n_x - 1) :=
    fun r _ => row_split g ((r + 1) * n_x) n_x hx
  rw [Finset.sum_congr rfl h4]
  simp only [Nat.zero_mul, Nat.zero_add]
  ring

/-! ### Evaluating the nine structural cases under their bounds -/

lemma term_r1_first_eval (l : Laplace2dMatrix) (x b : List ℚ)
    (h2x : 2 ≤ l.n_x) (hx : l.n_x < x.length) (hb : 0 < b.length) :
    term_r1_first l x b =
      some (square (-(geti b 0) + geti x 0 * l.diag + geti x 1 * l.tri_diag +
        geti x l.n_x * l.side_diag)) := by
  have e1 : (1 : ℕ) - 1 = 0 := rfl
  have e2 : (2 : ℕ) - 1 = 1 := rfl
  have e3 : 1 + l.n_x - 1 = l.n_x := by omega
  rw [term_r1_first, sub?_eq (le_refl 1), sub?_eq (show (1 : ℕ) ≤ 2 by omega),
    sub?_eq (show 1 ≤ 1 + l.n_x by omega)]
  simp only [e1, e2, e3, Option.bind_eq_bind, Option.some_bind]
  rw [arrIdx_eq (show (0 : ℕ) < b.length from hb),
    arrIdx_eq (show 0 < x.length by omega),
    arrIdx_eq (show 1 < x.length by omega), arrIdx_eq hx]
  simp only [Option.some_bind, Option.pure_def]

lemma term_r1_mid_eval (l : Laplace2dMatrix) (x b : List ℚ) (i : ℕ)
    (h2x : 2 ≤ l.n_x) (h2i : 2 ≤ i) (hd : i + l.n_x - 1 < x.length)
    (hb : i ≤ b.length) :
    term_r1_mid l x b i =
      some (square (-(geti b (i - 1)) + geti x (i - 1) * l.diag +
        geti x i * l.tri_diag + geti x (i - 2) * l.tri_diag +
        geti x (i + l.n_x - 1) * l.side_diag)) := by
  have e1 : i + 1 - 1 = i := by omega
  have e2 : i - 1 - 1 = i - 2 := by omega
  rw [term_r1_mid, sub?_eq (show 1 ≤ i by omega),
    sub?_eq (show 1 ≤ i + 1 by omega), sub?_eq (show 1 ≤ i + l.n_x by omega)]
  simp only [e1, Option.bind_eq_bind, Option.some_bind]
  rw [sub?_eq (show 1 ≤ i - 1 by omega)]
  simp only [e2, Option.some_bind]
  rw [arrIdx_eq (show i - 1 < b.length by omega),
    arrIdx_eq (show i - 1 < x.length by omega),
    arrIdx_eq (show i < x.length by omega),
    arrIdx_eq (show i - 2 < x.length by omega), arrIdx_eq hd]
  simp only [Option.some_bind, Option.pure_def]

lemma term_r1_last_eval (l : Laplace2dMatrix) (x b : List ℚ)
    (h2x : 2 ≤ l.n_x) (hx : l.n_x + l.n_x - 1 < x.length)
    (hb : l.n_x ≤ b.length) :
    term_r1_last l x b =
      some (square (-(geti b (l.n_x - 1)) + geti x (l.n_x - 1) * l.diag +
        geti x (l.n_x - 2) * l.tri_diag +
        geti x (l.n_x + l.n_x - 1) * l.side_diag)) := by
  have e2 : l.n_x - 1 - 1 = l.n_x - 2 := by omega
  rw [term_r1_last, sub?_eq (show 1 ≤ l.n_x by omega),
    sub?_eq (show 1 ≤ l.n_x + l.n_x by omega)]
  simp only [Option.bind_eq_bind, Option.some_bind]
  rw [sub?_eq (show 1 ≤ l.n_x - 1 by omega)]
  simp only [e2, Option.some_bind]
  rw [arrIdx_eq (show l.n_x - 1 < b.length by omega),
    arrIdx_eq (show l.n_x - 1 < x.length by omega),
    arrIdx_eq (show l.n_x - 2 < x.length by omega), arrIdx_eq hx]
  simp only [Option.some_bind, Option.pure_def]

lemma term_mid_first_eval (l : Laplace2dMatrix) (x b : List ℚ) (ob : ℕ)
    (h2x : 2 ≤ l.n_x) (h1 : l.n_x ≤ ob) (h2 : ob + l.n_x < x.length)
    (hb : ob < b.length) :
    term_mid_first l x b ob =
      some (square (-(geti b ob) + geti x ob * l.diag +
        geti x (ob + 1) * l.tri_diag + geti x (ob - l.n_x) * l.side_diag +
        geti x (ob + l.n_x) * l.side_diag)) := by
  have e1 : ob + 1 - 1 = ob := by omega
  have e2 : ob + 2 - 1 = ob + 1 := by omega
  have e3 : ob + 1 + l.n_x - 1 = ob + l.n_x := by omega
  have e4 : ob + 1 - l.n_x - 1 = ob - l.n_x := by omega
  rw [term_mid_first, sub?_eq (show 1 ≤ ob + 1 by omega),
    sub?_eq (show 1 ≤ ob + 2 by omega), sub?_eq (show l.n_x ≤ ob + 1 by omega),
    sub?_eq (show 1 ≤ ob + 1 + l.n_x by omega)]
  simp only [e1, e2, e3, Option.bind_eq_bind, Option.some_bind]
  rw [sub?_eq (show 1 ≤ ob + 1 - l.n_x by omega)]
  simp only [e4, Option.some_bind]
  rw [arrIdx_eq hb, arrIdx_eq (show ob < x.length by omega),
    arrIdx_eq (show ob + 1 < x.length by omega),
    arrIdx_eq (show ob - l.n_x < x.length by omega), arrIdx_eq h2]
  simp only [Option.some_bind, Option.pure_def]

lemma term_mid_mid_eval (l : Laplace2dMatrix) (x b : List ℚ) (ob i : ℕ)
    (h2x : 2 ≤ l.n_x) (h2i : 2 ≤ i) (h1 : l.n_x ≤ ob)
    (hd : ob + i + l.n_x - 1 < x.length) (hb : ob + i ≤ b.length) :
    term_mid_mid l x b ob i =
      some (square (-(geti b (ob + i - 1)) + geti x (ob + i - 1) * l.diag +
        geti x (ob + i) * l.tri_diag + geti x (ob + i - 2) * l.tri_diag +
        geti x (ob + i + l.n_x - 1) * l.side_diag +
        geti x (ob + i - l.n_x - 1) * l.side_diag)) := by
  have e1 : ob + i + 1 - 1 = ob + i := by omega
  have e2 : ob + i - 1 - 1 = ob + i - 2 := by omega
  rw [term_mid_mid, sub?_eq (show 1 ≤ ob + i by omega),
    sub?_eq (show 1 ≤ ob + i + 1 by omega),
    sub?_eq (show 1 ≤ ob + i + l.n_x by omega),
    sub?_eq (show l.n_x ≤ ob + i by omega)]
  simp only [e1, Option.bind_eq_bind, Option.some_bind]
  rw [sub?_eq (show 1 ≤ ob + i - 1 by omega),
    sub?_eq (show 1 ≤ ob + i - l.n_x by omega)]
  simp only [e2, Option.some_bind]
  rw [arrIdx_eq (show ob + i - 1 < b.length by omega),
    arrIdx_eq (show ob + i - 1 < x.length by omega),
    arrIdx_eq (show ob + i < x.length by omega),
    arrIdx_eq (show ob + i - 2 < x.length by omega), arrIdx_eq hd,
    arrIdx_eq (show ob + i - l.n_x - 1 < x.length by omega)]
  simp only [Option.some_bind, Option.pure_def]

lemma term_mid_last_eval (l : Laplace2dMatrix) (x b : List ℚ) (ob : ℕ)
    (h2x : 2 ≤ l.n_x) (h1 : l.n_x ≤ ob)
    (hd : ob + l.n_x + l.n_x - 1 < x.length) (hb : ob + l.n_x ≤ b.length) :
    term_mid_last l x b ob =
      some (square (-(geti b (ob + l.n_x - 1)) +
        geti x (ob + l.n_x - 1) * l.diag +
        geti x (ob + l.n_x - 2) * l.tri_diag +
        geti x (ob + l.n_x + l.n_x - 1) * l.side_diag +
        geti x (ob - 1) * l.side_diag)) := by
  have e2 : ob + l.n_x - 1 - 1 = ob + l.n_x - 2 := by omega
  rw [term_mid_last, sub?_eq (show 1 ≤ ob + l.n_x by omega),
    sub?_eq (show 1 ≤ ob + l.n_x + l.n_x by omega),
    sub?_eq (show 1 ≤ ob by omega)]
  simp only [Option.bind_eq_bind, Option.some_bind]
  rw [sub?_eq (show 1 ≤ ob + l.n_x - 1 by omega)]
  simp only [e2, Option.some_bind]
  rw [arrIdx_eq (show ob + l.n_x - 1 < b.length by omega),
    arrIdx_eq (show ob + l.n_x - 1 < x.length by omega),
    arrIdx_eq (show ob + l.n_x - 2 < x.length by omega), arrIdx_eq hd,
    arrIdx_eq (show ob - 1 < x.length by omega)]
  simp only [Option.some_bind, Option.pure_def]

lemma term_rl_first_eval (l : Laplace2dMatrix) (x b : List ℚ)
    (h2x : 2 ≤ l.n_x) (hnx2 : 2 * l.n_x ≤ l.n) (hxl : l.n = x.length)
    (hbl : b.length = x.length) :
    term_rl_first l x b =
      some (square (-(geti b (l.n - l.n_x)) + geti x (l.n - l.n_x) * l.diag +
        geti x (l.n - l.n_x + 1) * l.tri_diag +
        geti x (l.n - l.n_x - l.n_x) * l.side_diag)) := by
  have e1 : l.n - l.n_x + 1 - 1 = l.n - l.n_x := by omega
  have e2 : l.n - l.n_x + 2 - 1 = l.n - l.n_x + 1 := by omega
  have e3 : l.n - l.n_x - l.n_x + 1 - 1 = l.n - l.n_x - l.n_x := by omega
  rw [term_rl_first, sub?_eq (show l.n_x ≤ l.n by omega)]
  simp only [Option.bind_eq_bind, Option.some_bind]
  rw [sub?_eq (show 1 ≤ l.n - l.n_x + 1 by omega),
    sub?_eq (show 1 ≤ l.n - l.n_x + 2 by omega),
    sub?_eq (show l.n_x ≤ l.n - l.n_x by omega)]
  simp only [e1, e2, Option.some_bind]
  rw [sub?_eq (show 1 ≤ l.n - l.n_x - l.n_x + 1 by omega)]
  simp only [e3, Option.some_bind]
  rw [arrIdx_eq (show l.n - l.n_x < b.length by omega),
    arrIdx_eq (show l.n - l.n_x < x.length by omega),
    arrIdx_eq (show l.n - l.n_x + 1 < x.length by omega),
    arrIdx_eq (show l.n - l.n_x - l.n_x < x.length by omega)]
  simp only [Option.some_bind, Option.pure_def]

lemma term_rl_mid_eval (l : Laplace2dMatrix) (x b : List ℚ) (i : ℕ)
    (h2x : 2 ≤ l.n_x) (hnxi : l.n_x < i) (hix : i < x.length)
    (hib : i ≤ b.length) :
    term_rl_mid l x b i =
      some (square (-(geti b (i - 1)) + geti x (i - 1) * l.diag +
        geti x i * l.tri_diag + geti x (i - 2) * l.tri_diag +
        geti x (i - l.n_x - 1) * l.side_diag)) := by
  have e1 : i + 1 - 1 = i := by omega
  have e2 : i - 1 - 1 = i - 2 := by omega
  rw [term_rl_mid, sub?_eq (show 1 ≤ i by omega),
    sub?_eq (show 1 ≤ i + 1 by omega), sub?_eq (show l.n_x ≤ i by omega)]
  simp only [e1, Option.bind_eq_bind, Option.some_bind]
  rw [sub?_eq (show 1 ≤ i - 1 by omega),
    sub?_eq (show 1 ≤ i - l.n_x by omega)]
  simp only [e2, Option.some_bind]
  rw [arrIdx_eq (show i - 1 < b.length by omega),
    arrIdx_eq (show i - 1 < x.length by omega), arrIdx_eq hix,
    arrIdx_eq (show i - 2 < x.length by omega),
    arrIdx_eq (show i - l.n_x - 1 < x.length by omega)]
  simp only [Option.some_bind, Option.pure_def]

lemma term_rl_last_eval (l : Laplace2dMatrix) (x b : List ℚ)
    (h2x : 2 ≤ l.n_x) (hlt : l.n_x < l.n) (hxl : l.n = x.length)
    (hbl : b.length = x.length) :
    term_rl_last l x b =
      some (square (-(geti b (l.n - 1)) + geti x (l.n - 1) * l.diag +
        geti x (l.n - 2) * l.tri_diag +
        geti x (l.n - l.n_x - 1) * l.side_diag)) := by
  have e2 : l.n - 1 - 1 = l.n - 2 := by omega
  rw [term_rl_last, sub?_eq (show 1 ≤ l.n by omega),
    sub?_eq (show l.n_x ≤ l.n by omega)]
  simp only [Option.bind_eq_bind, Option.some_bind]
  rw [sub?_eq (show 1 ≤ l.n - 1 by omega),
    sub?_eq (show 1 ≤ l.n - l.n_x by omega)]
  simp only [e2, Option.some_bind]
  rw [arrIdx_eq (show l.n - 1 < b.length by omega),
    arrIdx_eq (show l.n - 1 < x.length by omega),
    arrIdx_eq (show l.n - 2 < x.length by omega),
    arrIdx_eq (show l.n - l.n_x - 1 < x.length by omega)]
  simp only [Option.some_bind, Option.pure_def]

/-! ### Resolving the reference stencil at each structural position -/

lemma gmatch_r1_first (l : Laplace2dMatrix) (x b : List ℚ)
    (h2x : 2 ≤ l.n_x) (h2y : 2 ≤ l.n_y) :
    square (refLx l x 0 - geti b 0) =
      square (-(geti b 0) + geti x 0 * l.diag + geti x 1 * l.tri_diag +
        geti x l.n_x * l.side_diag) := by
  have hr : (0 : ℕ) ≠ l.n_x - 1 := by omega
  have hd : (0 : ℕ) ≠ l.n_y - 1 := by omega
  simp only [refLx, Nat.zero_mod, Nat.zero_div, ne_eq, not_true_eq_false,
    if_false, hr, hd, not_false_eq_true, if_true, zero_add, add_zero]
  simp only [square]
  ring

lemma gmatch_r1_mid (l : Laplace2dMatrix) (x b : List ℚ) (c : ℕ)
    (h2x : 2 ≤ l.n_x) (h2y : 2 ≤ l.n_y) (hc : c < l.n_x - 2) :
    square (refLx l x (c + 1) - geti b (c + 1)) =
      square (-(geti b (c + 1)) + geti x (c + 1) * l.diag +
        geti x (c + 2) * l.tri_diag + geti x c * l.tri_diag +
        geti x (c + 1 + l.n_x) * l.side_diag) := by
  have hmod : (c + 1) % l.n_x = c + 1 := Nat.mod_eq_of_lt (by omega)
  have hdiv : (c + 1) / l.n_x = 0 := Nat.div_eq_of_lt (by omega)
  have hl : c + 1 ≠ 0 := by omega
  have hr : c + 1 ≠ l.n_x - 1 := by omega
  have hd : (0 : ℕ) ≠ l.n_y - 1 := by omega
  have f1 : c + 1 - 1 = c := by omega
  have f2 : c + 1 + 1 = c + 2 := by omega
  simp only [refLx, hmod, hdiv, ne_eq, hl, hr, hd, not_true_eq_false,
    if_false, not_false_eq_true, if_true, f1, f2, add_zero]
  simp only [square]
  ring

lemma gmatch_r1_last (l : Laplace2dMatrix) (x b : List ℚ)
    (h2x : 2 ≤ l.n_x) (h2y : 2 ≤ l.n_y) :
    square (refLx l x (l.n_x - 1) - geti b (l.n_x - 1)) =
      square (-(geti b (l.n_x - 1)) + geti x (l.n_x - 1) * l.diag +
        geti x (l.n_x - 2) * l.tri_diag +
        geti x (l.n_x + l.n_x - 1) * l.side_diag) := by
  have hmod : (l.n_x - 1) % l.n_x = l.n_x - 1 := Nat.mod_eq_of_lt (by omega)
  have hdiv : (l.n_x - 1) / l.n_x = 0 := Nat.div_eq_of_lt (by omega)
  have hl : l.n_x - 1 ≠ 0 := by omega
  have hd : (0 : ℕ) ≠ l.n_y - 1 := by omega
  have f1 : l.n_x - 1 - 1 = l.n_x - 2 := by omega
  have f2 : l.n_x - 1 + l.n_x = l.n_x + l.n_x - 1 := by omega
  simp only [refLx, hmod, hdiv, ne_eq, hl, hd, not_true_eq_false, if_false,
    not_false_eq_true, if_true, f1, f2, add_zero]
  simp only [square]
  ring

lemma gmatch_mid_first (l : Laplace2dMatrix) (x b : List ℚ) (q : ℕ)
    (h2x : 2 ≤ l.n_x) (hq1 : 1 ≤ q) (hq2 : q < l.n_y - 1) :
    square (refLx l x (q * l.n_x) - geti b (q * l.n_x)) =
      square (-(geti b (q * l.n_x)) + geti x (q * l.n_x) * l.diag +
        geti x (q * l.n_x + 1) * l.tri_diag +
        geti x (q * l.n_x - l.n_x) * l.side_diag +
        geti x (q * l.n_x + l.n_x) * l.side_diag) := by
  have hmod : (q * l.n_x) % l.n_x = 0 := Nat.mul_mod_left q l.n_x
  have hdiv : (q * l.n_x) / l.n_x = q := Nat.mul_div_cancel q (by omega)
  have hr : (0 : ℕ) ≠ l.n_x - 1 := by omega
  have hu : q ≠ 0 := by omega
  have hd : q ≠ l.n_y - 1 := by omega
  simp only [refLx, hmod, hdiv, ne_eq, hr, hu, hd, not_true_eq_false,
    if_false, not_false_eq_true, if_true, add_zero]
  simp only [square]
  ring

lemma gmatch_mid_mid (l : Laplace2dMatrix) (x b : List ℚ) (q c : ℕ)
    (h2x : 2 ≤ l.n_x) (hq1 : 1 ≤ q) (hq2 : q < l.n_y - 1)
    (hc : c < l.n_x - 2) :
    square (refLx l x (q * l.n_x + c + 1) - geti b (q * l.n_x + c + 1)) =
      square (-(geti b (q * l.n_x + c + 1)) +
        geti x (q * l.n_x + c + 1) * l.diag +
        geti x (q * l.n_x + c + 2) * l.tri_diag +
        geti x (q * l.n_x + c) * l.tri_diag +
        geti x (q * l.n_x + c + 1 + l.n_x) * l.side_diag +
        geti x (q * l.n_x + c + 1 - l.n_x) * l.side_diag) := by
  have e5 : q * l.n_x + c + 1 = (c + 1) + l.n_x * q := by
    rw [Nat.mul_comm q l.n_x]; omega
  have hmod : (q * l.n_x + c + 1) % l.n_x = c + 1 := by
    rw [e5, Nat.add_mul_mod_self_left, Nat.mod_eq_of_lt (by omega)]
  have hdiv : (q * l.n_x + c + 1) / l.n_x = q := by
    rw [e5, Nat.add_mul_div_left _ _ (show 0 < l.n_x by omega),
      Nat.div_eq_of_lt (by omega), Nat.zero_add]
  have hl : c + 1 ≠ 0 := by omega
  have hr : c + 1 ≠ l.n_x - 1 := by omega
  have hu : q ≠ 0 := by omega
  have hd : q ≠ l.n_y - 1 := by omega
  have f1 : q * l.n_x + c + 1 - 1 = q * l.n_x + c := by omega
  have f2 : q * l.n_x + c + 1 + 1 = q * l.n_x + c + 2 := by omega
  simp only [refLx, hmod, hdiv, ne_eq, hl, hr, hu, hd, not_true_eq_false,
    if_false, not_false_eq_true, if_true, f1, f2, add_zero]
  simp only [square]
  ring

lemma gmatch_mid_last (l : Laplace2dMatrix) (x b : List ℚ) (q : ℕ)
    (h2x : 2 ≤ l.n_x) (hq1 : 1 ≤ q) (hq2 : q < l.n_y - 1) :
    square (refLx l x (q * l.n_x + l.n_x - 1) -
        geti b (q * l.n_x + l.n_x - 1)) =
      square (-(geti b (q * l.n_x + l.n_x - 1)) +
        geti x (q * l.n_x + l.n_x - 1) * l.diag +
        geti x (q * l.n_x + l.n_x - 2) * l.tri_diag +
        geti x (q * l.n_x + l.n_x + l.n_x - 1) * l.side_diag +
        geti x (q * l.n_x - 1) * l.side_diag) := by
  have e6 : q * l.n_x + l.n_x - 1 = (l.n_x - 1) + l.n_x * q := by
    rw [Nat.mul_comm q l.n_x]; omega
  have hmod : (q * l.n_x + l.n_x - 1) % l.n_x = l.n_x - 1 := by
    rw [e6, Nat.add_mul_mod_self_left, Nat.mod_eq_of_lt (by omega)]
  have hdiv : (q * l.n_x + l.n_x - 1) / l.n_x = q := by
    rw [e6, Nat.add_mul_div_left _ _ (show 0 < l.n_x by omega),
      Nat.div_eq_of_lt (by omega), Nat.zero_add]
  have hl : l.n_x - 1 ≠ 0 := by omega
  have hu : q ≠ 0 := by omega
  have hd : q ≠ l.n_y - 1 := by omega
  have f1 : q * l.n_x + l.n_x - 1 - 1 = q * l.n_x + l.n_x - 2 := by omega
  have f2 : q * l.n_x + l.n_x - 1 - l.n_x = q * l.n_x - 1 := by omega
  have f3 : q * l.n_x + l.n_x - 1 + l.n_x = q * l.n_x + l.n_x + l.n_x - 1 := by
    omega
  simp only [refLx, hmod, hdiv, ne_eq, hl, hu, hd, not_true_eq_false,
    if_false, not_false_eq_true, if_true, f1, f2, f3, add_zero]
  simp only [square]
  ring

lemma gmatch_rl_first (l : Laplace2dMatrix) (x b : List ℚ)
    (h2x : 2 ≤ l.n_x) (h2y : 2 ≤ l.n_y) (hn : l.n = l.n_x * l.n_y) :
    square (refLx l x (l.n - l.n_x) - geti b (l.n - l.n_x)) =
      square (-(geti b (l.n - l.n_x)) + geti x (l.n - l.n_x) * l.diag +
        geti x (l.n - l.n_x + 1) * l.tri_diag +
        geti x (l.n - l.n_x - l.n_x) * l.side_diag) := by
  have e0 : l.n_x * (l.n_y - 1) + l.n_x = l.n_x * l.n_y := by
    rw [← Nat.mul_succ]
    congr 1
    omega
  have e7 : l.n - l.n_x = l.n_x * (l.n_y - 1) := by omega
  have hmod : (l.n - l.n_x) % l.n_x = 0 := by
    rw [e7, Nat.mul_mod_right]
  have hdiv : (l.n - l.n_x) / l.n_x = l.n_y - 1 := by
    rw [e7, Nat.mul_div_cancel_left _ (show 0 < l.n_x by omega)]
  have hr : (0 : ℕ) ≠ l.n_x - 1 := by omega
  have hu : l.n_y - 1 ≠ 0 := by omega
  simp only [refLx, hmod, hdiv, ne_eq, hr, hu, not_true_eq_false, if_false,
    not_false_eq_true, if_true, add_zero]
  simp only [square]
  ring

lemma gmatch_rl_mid (l : Laplace2dMatrix) (x b : List ℚ) (c : ℕ)
    (h2x : 2 ≤ l.n_x) (h2y : 2 ≤ l.n_y) (hn : l.n = l.n_x * l.n_y)
    (hc : c < l.n_x - 2) :
    square (refLx l x (l.n - l.n_x + c + 1) - geti b (l.n - l.n_x + c + 1)) =
      square (-(geti b (l.n - l.n_x + c + 1)) +
        geti x (l.n - l.n_x + c + 1) * l.diag +
        geti x (l.n - l.n_x + c + 2) * l.tri_diag +
        geti x (l.n - l.n_x + c) * l.tri_diag +
        geti x (l.n - l.n_x + c + 1 - l.n_x) * l.side_diag) := by
  have e0 : l.n_x * (l.n_y - 1) + l.n_x = l.n_x * l.n_y := by
    rw [← Nat.mul_succ]
    congr 1
    omega
  have e8 : l.n - l.n_x + c + 1 = (c + 1) + l.n_x * (l.n_y - 1) := by omega
  have hmod : (l.n - l.n_x + c + 1) % l.n_x = c + 1 := by
    rw [e8, Nat.add_mul_mod_self_left, Nat.mod_eq_of_lt (by omega)]
  have hdiv : (l.n - l.n_x + c + 1) / l.n_x = l.n_y - 1 := by
    rw [e8, Nat.add_mul_div_left _ _ (show 0 < l.n_x by omega),
      Nat.div_eq_of_lt (by omega), Nat.zero_add]
  have hl : c + 1 ≠ 0 := by omega
  have hr : c + 1 ≠ l.n_x - 1 := by omega
  have hu : l.n_y - 1 ≠ 0 := by omega
  have f1 : l.n - l.n_x + c + 1 - 1 = l.n - l.n_x + c := by omega
  have f2 : l.n - l.n_x + c + 1 + 1 = l.n - l.n_x + c + 2 := by omega
  simp only [refLx, hmod, hdiv, ne_eq, hl, hr, hu, not_true_eq_false,
    if_false, not_false_eq_true, if_true, f1, f2, add_zero]
  simp only [square]
  ring

lemma gmatch_rl_last (l : Laplace2dMatrix) (x b : List ℚ)
    (h2x : 2 ≤ l.n_x) (h2y : 2 ≤ l.n_y) (hn : l.n = l.n_x * l.n_y) :
    square (refLx l x (l.n - 1) - geti b (l.n - 1)) =
      square (-(geti b (l.n - 1)) + geti x (l.n - 1) * l.diag +
        geti x (l.n - 2) * l.tri_diag +
        geti x (l.n - l.n_x - 1) * l.side_diag) := by
  have e0 : l.n_x * (l.n_y - 1) + l.n_x = l.n_x * l.n_y := by
    rw [← Nat.mul_succ]
    congr 1
    omega
  have e9 : l.n - 1 = (l.n_x - 1) + l.n_x * (l.n_y - 1) := by omega
  have hmod : (l.n - 1) % l.n_x = l.n_x - 1 := by
    rw [e9, Nat.add_mul_mod_self_left, Nat.mod_eq_of_lt (by omega)]
  have hdiv : (l.n - 1) / l.n_x = l.n_y - 1 := by
    rw [e9, Nat.add_mul_div_left _ _ (show 0 < l.n_x by omega),
      Nat.div_eq_of_lt (by omega), Nat.zero_add]
  have hl : l.n_x - 1 ≠ 0 := by omega
  have hu : l.n_y - 1 ≠ 0 := by omega
  have f1 : l.n - 1 - 1 = l.n - 2 := by omega
  have f2 : l.n - 1 - l.n_x = l.n - l.n_x - 1 := by omega
  simp only [refLx, hmod, hdiv, ne_eq, hl, hu, not_true_eq_false, if_false,
    not_false_eq_true, if_true, f1, f2, add_zero]
  simp only [square]
  ring

lemma midRowSum_eval (l : Laplace2dMatrix) (x b : List ℚ) (q : ℕ)
    (h2x : 2 ≤ l.n_x) (hq1 : 1 ≤ q) (hq2 : q + 2 ≤ l.n_y)
    (hn : l.n = l.n_x * l.n_y) (hx : x.length = l.n) (hb : b.length = l.n) :
    midRowSum l x b (q * l.n_x) =
      some (square (-(geti b (q * l.n_x)) + geti x (q * l.n_x) * l.diag +
          geti x (q * l.n_x + 1) * l.tri_diag +
          geti x (q * l.n_x - l.n_x) * l.side_diag +
          geti x (q * l.n_x + l.n_x) * l.side_diag)
        + (∑ c in Finset.range (l.n_x - 2),
            square (-(geti b (q * l.n_x + c + 1)) +
              geti x (q * l.n_x + c + 1) * l.diag +
              geti x (q * l.n_x + c + 2) * l.tri_diag +
              geti x (q * l.n_x + c) * l.tri_diag +
              geti x (q * l.n_x + c + 1 + l.n_x) * l.side_diag +
              geti x (q * l.n_x + c + 1 - l.n_x) * l.side_diag))
        + square (-(geti b (q * l.n_x + l.n_x - 1)) +
            geti x (q * l.n_x + l.n_x - 1) * l.diag +
            geti x (q * l.n_x + l.n_x - 2) * l.tri_diag +
            geti x (q * l.n_x + l.n_x + l.n_x - 1) * l.side_diag +
            geti x (q * l.n_x - 1) * l.side_diag)) := by
  have hbound : q * l.n_x + 2 * l.n_x ≤ l.n := by
    have h1 : (q + 2) * l.n_x ≤ l.n_y * l.n_x := Nat.mul_le_mul_right _ hq2
    have h2 : (q + 2) * l.n_x = q * l.n_x + 2 * l.n_x := by ring
    have h3 : l.n_y * l.n_x = l.n_x * l.n_y := by ring
    omega
  have h1q : l.n_x ≤ q * l.n_x := by
    have h4 : 1 * l.n_x ≤ q * l.n_x := Nat.mul_le_mul_right _ hq1
    omega
  have hloop : optSum (term_mid_mid l x b (q * l.n_x)) (rustRange 2 l.n_x) =
      some (∑ c in Finset.range (l.n_x - 2),
        square (-(geti b (q * l.n_x + c + 1)) +
          geti x (q * l.n_x + c + 1) * l.diag +
          geti x (q * l.n_x + c + 2) * l.tri_diag +
          geti x (q * l.n_x + c) * l.tri_diag +
          geti x (q * l.n_x + c + 1 + l.n_x) * l.side_diag +
          geti x (q * l.n_x + c + 1 - l.n_x) * l.side_diag)) := by
    rw [rustRange,
      optSum_range' (fun i hi1 hi2 =>
        term_mid_mid_eval l x b (q * l.n_x) i h2x hi1 h1q (by omega)
          (by omega))]
    congr 1
    apply Finset.sum_congr rfl
    intro c hc
    have hc2 : c < l.n_x - 2 := Finset.mem_range.mp hc
    have i1 : q * l.n_x + (2 + c) - 1 = q * l.n_x + c + 1 := by omega
    have i2 : q * l.n_x + (2 + c) - 2 = q * l.n_x + c := by omega
    have i3 : q * l.n_x + (2 + c) + l.n_x - 1 = q * l.n_x + c + 1 + l.n_x := by
      omega
    have i4 : q * l.n_x + (2 + c) - l.n_x - 1 = q * l.n_x + c + 1 - l.n_x := by
      omega
    have i5 : q * l.n_x + (2 + c) = q * l.n_x + c + 2 := by omega
    rw [i1, i2, i3, i4, i5]
  rw [midRowSum,
    term_mid_first_eval l x b (q * l.n_x) h2x h1q (by omega) (by omega),
    hloop,
    term_mid_last_eval l x b (q * l.n_x) h2x h1q (by omega) (by omega)]
  simp only [Option.bind_eq_bind, Option.some_bind, Option.pure_def]

lemma kernel_eq_ref (l : Laplace2dMatrix) (x b : List ℚ)
    (h2x : 2 ≤ l.n_x) (h2y : 2 ≤ l.n_y) (hn : l.n = l.n_x * l.n_y)
    (hx : x.length = l.n) (hb : b.length = l.n) :
    _calculate_residual_squared l x b = some (referenceResidual l x b) := by
  have hnx2 : 2 * l.n_x ≤ l.n := by
    have h1 : l.n_x * 2 ≤ l.n_x * l.n_y := Nat.mul_le_mul_left _ h2y
    have h2 : l.n_x * 2 = 2 * l.n_x := by ring
    omega
  have h0 : 0 < l.n := by omega
  rw [_calculate_residual_squared, if_pos ⟨hx.symm, hb.symm, hn, h0⟩]
  rw [term_r1_first_eval l x b h2x (by omega) (by omega)]
  have hS2 : optSum (term_r1_mid l x b) (rustRange 2 l.n_x) =
      some (∑ c in Finset.range (l.n_x - 2),
        square (-(geti b (c + 1)) + geti x (c + 1) * l.diag +
          geti x (c + 2) * l.tri_diag + geti x c * l.tri_diag +
          geti x (c + 1 + l.n_x) * l.side_diag)) := by
    rw [rustRange,
      optSum_range' (fun i hi1 hi2 =>
        term_r1_mid_eval l x b i h2x hi1 (by omega) (by omega))]
    congr 1
    apply Finset.sum_congr rfl
    intro c hc
    have hc2 : c < l.n_x - 2 := Finset.mem_range.mp hc
    have i1 : 2 + c - 1 = c + 1 := by omega
    have i2 : 2 + c - 2 = c := by omega
    have i3 : 2 + c + l.n_x - 1 = c + 1 + l.n_x := by omega
    rw [i1, i2, i3]
    have i4 : 2 + c = c + 2 := by omega
    rw [i4]
  rw [hS2, term_r1_last_eval l x b h2x (by omega) (by omega), sub?_eq h2y]
  simp only [Option.bind_eq_bind, Option.some_bind]
  have hS4 : optSum (midRowSum l x b)
      (stepRange l.n_x (l.n_x * (l.n_y - 2) + 1) l.n_x) =
      some (∑ r in Finset.range (l.n_y - 2),
        (square (-(geti b ((r + 1) * l.n_x)) +
            geti x ((r + 1) * l.n_x) * l.diag +
            geti x ((r + 1) * l.n_x + 1) * l.tri_diag +
            geti x ((r + 1) * l.n_x - l.n_x) * l.side_diag +
            geti x ((r + 1) * l.n_x + l.n_x) * l.side_diag)
          + (∑ c in Finset.range (l.n_x - 2),
              square (-(geti b ((r + 1) * l.n_x + c + 1)) +
                geti x ((r + 1) * l.n_x + c + 1) * l.diag +
                geti x ((r + 1) * l.n_x + c + 2) * l.tri_diag +
                geti x ((r + 1) * l.n_x + c) * l.tri_diag +
                geti x ((r + 1) * l.n_x + c + 1 + l.n_x) * l.side_diag +
                geti x ((r + 1) * l.n_x + c + 1 - l.n_x) * l.side_diag))
          + square (-(geti b ((r + 1) * l.n_x + l.n_x - 1)) +
              geti x ((r + 1) * l.n_x + l.n_x - 1) * l.diag +
              geti x ((r + 1) * l.n_x + l.n_x - 2) * l.tri_diag +
              geti x ((r + 1) * l.n_x + l.n_x + l.n_x - 1) * l.side_diag +
              geti x ((r + 1) * l.n_x - 1) * l.side_diag))) := by
    rw [stepRange_eq (show 1 ≤ l.n_x by omega)]
    refine optSum_range_map (fun k hk => ?_)
    rw [show l.n_x + k * l.n_x = (k + 1) * l.n_x from by ring]
    exact midRowSum_eval l x b (k + 1) h2x (by omega) (by omega) hn hx hb
  rw [hS4, term_rl_first_eval l x b h2x hnx2 hx.symm (by omega),
    sub?_eq (show l.n_x ≤ l.n by omega)]
  simp only [Option.bind_eq_bind, Option.some_bind]
  have hS6 : optSum (term_rl_mid l x b) (rustRange (l.n - l.n_x + 2) l.n) =
      some (∑ c in Finset.range (l.n_x - 2),
        square (-(geti b (l.n - l.n_x + c + 1)) +
          geti x (l.n - l.n_x + c + 1) * l.diag +
          geti x (l.n - l.n_x + c + 2) * l.tri_diag +
          geti x (l.n - l.n_x + c) * l.tri_diag +
          geti x (l.n - l.n_x + c + 1 - l.n_x) * l.side_diag)) := by
    rw [rustRange, show l.n - (l.n - l.n_x + 2) = l.n_x - 2 from by omega,
      optSum_range' (fun i hi1 hi2 =>
        term_rl_mid_eval l x b i h2x (by omega) (by omega) (by omega))]
    congr 1
    apply Finset.sum_congr rfl
    intro c hc
    have hc2 : c < l.n_x - 2 := Finset.mem_range.mp hc
    have i1 : l.n - l.n_x + 2 + c - 1 = l.n - l.n_x + c + 1 := by omega
    have i2 : l.n - l.n_x + 2 + c - 2 = l.n - l.n_x + c := by omega
    have i3 : l.n - l.n_x + 2 + c - l.n_x - 1 =
        l.n - l.n_x + c + 1 - l.n_x := by omega
    rw [i1, i2, i3]
    have i4 : l.n - l.n_x + 2 + c = l.n - l.n_x + c + 2 := by omega
    rw [i4]
  rw [hS6, term_rl_last_eval l x b h2x (by omega) hx.symm (by omega)]
  simp only [Option.bind_eq_bind, Option.some_bind, Option.pure_def]
  rw [referenceResidual]
  congr 1
  have hdec := sum_grid_decomp (fun j => square (refLx l x j - geti b j))
    l.n_x l.n_y h2x h2y
  simp only [] at hdec
  rw [show (Finset.range l.n) = Finset.range (l.n_x * l.n_y) from by rw [hn],
    hdec]
  have hlast : (l.n_y - 1) * l.n_x = l.n - l.n_x := by
    have e0 : l.n_x * (l.n_y - 1) + l.n_x = l.n_x * l.n_y := by
      rw [← Nat.mul_succ]
      congr 1
      omega
    rw [Nat.mul_comm]
    omega
  rw [hlast, show l.n - l.n_x + l.n_x - 1 = l.n - 1 from by omega]
  rw [gmatch_r1_first l x b h2x h2y, gmatch_r1_last l x b h2x h2y,
    gmatch_rl_first l x b h2x h2y hn, gmatch_rl_last l x b h2x h2y hn]
  have p2 : (∑ c in Finset.range (l.n_x - 2),
      square (refLx l x (c + 1) - geti b (c + 1))) =
      ∑ c in Finset.range (l.n_x - 2),
        square (-(geti b (c + 1)) + geti x (c + 1) * l.diag +
          geti x (c + 2) * l.tri_diag + geti x c * l.tri_diag +
          geti x (c + 1 + l.n_x) * l.side_diag) :=
    Finset.sum_congr rfl (fun c hc =>
      gmatch_r1_mid l x b c h2x h2y (Finset.mem_range.mp hc))
  have p6 : (∑ c in Finset.range (l.n_x - 2),
      square (refLx l x (l.n - l.n_x + c + 1) -
        geti b (l.n - l.n_x + c + 1))) =
      ∑ c in Finset.range (l.n_x - 2),
        square (-(geti b (l.n - l.n_x + c + 1)) +
          geti x (l.n - l.n_x + c + 1) * l.diag +
          geti x (l.n - l.n_x + c + 2) * l.tri_diag +
          geti x (l.n - l.n_x + c) * l.tri_diag +
          geti x (l.n - l.n_x + c + 1 - l.n_x) * l.side_diag) :=
    Finset.sum_congr rfl (fun c hc =>
      gmatch_rl_mid l x b c h2x h2y hn (Finset.mem_range.mp hc))
  have p4 : (∑ r in Finset.range (l.n_y - 2),
      (square (refLx l x ((r + 1) * l.n_x) - geti b ((r + 1) * l.n_x))
        + (∑ c in Finset.range (l.n_x - 2),
            square (refLx l x ((r + 1) * l.n_x + c + 1) -
              geti b ((r + 1) * l.n_x + c + 1)))
        + square (refLx l x ((r + 1) * l.n_x + l.n_x - 1) -
            geti b ((r + 1) * l.n_x + l.n_x - 1)))) =
      ∑ r in Finset.range (l.n_y - 2),
        (square (-(geti b ((r + 1) * l.n_x)) +
            geti x ((r + 1) * l.n_x) * l.diag +
            geti x ((r + 1) * l.n_x + 1) * l.tri_diag +
            geti x ((r + 1) * l.n_x - l.n_x) * l.side_diag +
            geti x ((r + 1) * l.n_x + l.n_x) * l.side_diag)
          + (∑ c in Finset.range (l.n_x - 2),
              square (-(geti b ((r + 1) * l.n_x + c + 1)) +
                geti x ((r + 1) * l.n_x + c + 1) * l.diag +
                geti x ((r + 1) * l.n_x + c + 2) * l.tri_diag +
                geti x ((r + 1) * l.n_x + c) * l.tri_diag +
                geti x ((r + 1) * l.n_x + c + 1 + l.n_x) * l.side_diag +
                geti x ((r + 1) * l.n_x + c + 1 - l.n_x) * l.side_diag))
          + square (-(geti b ((r + 1) * l.n_x + l.n_x - 1)) +
              geti x ((r + 1) * l.n_x + l.n_x - 1) * l.diag +
              geti x ((r + 1) * l.n_x + l.n_x - 2) * l.tri_diag +
              geti x ((r + 1) * l.n_x + l.n_x + l.n_x - 1) * l.side_diag +
              geti x ((r + 1) * l.n_x - 1) * l.side_diag)) := by
    apply Finset.sum_congr rfl
    intro r hr
    have hr2 : r < l.n_y - 2 := Finset.mem_range.mp hr
    rw [gmatch_mid_first l x b (r + 1) h2x (by omega) (by omega),
      gmatch_mid_last l x b (r + 1) h2x (by omega) (by omega),
      Finset.sum_congr rfl (fun c hc =>
        gmatch_mid_mid l x b (r + 1) c h2x (by omega) (by omega)
          (Finset.mem_range.mp hc))]
  rw [p2, p6, p4]
  ring

/-! ### Every successful kernel run returns a nonnegative value -/

lemma term_r1_first_nonneg {l : Laplace2dMatrix} {x b : List ℚ} {v : ℚ}
    (h : term_r1_first l x b = some v) : 0 ≤ v := by
  simp only [term_r1_first, Option.bind_eq_bind, Option.bind_eq_some,
    Option.pure_def, Option.some.injEq] at h
  repeat obtain ⟨_, -, h⟩ := h
  try subst h
  rw [square]
  exact mul_self_nonneg _

lemma term_r1_mid_nonneg {l : Laplace2dMatrix} {x b : List ℚ} {i : ℕ} {v : ℚ}
    (h : term_r1_mid l x b i = some v) : 0 ≤ v := by
  simp only [term_r1_mid, Option.bind_eq_bind, Option.bind_eq_some,
    Option.pure_def, Option.some.injEq] at h
  repeat obtain ⟨_, -, h⟩ := h
  try subst h
  rw [square]
  exact mul_self_nonneg _

lemma term_r1_last_nonneg {l : Laplace2dMatrix} {x b : List ℚ} {v : ℚ}
    (h : term_r1_last l x b = some v) : 0 ≤ v := by
  simp only [term_r1_last, Option.bind_eq_bind, Option.bind_eq_some,
    Option.pure_def, Option.some.injEq] at h
  repeat obtain ⟨_, -, h⟩ := h
  try subst h
  rw [square]
  exact mul_self_nonneg _

lemma term_mid_first_nonneg {l : Laplace2dMatrix} {x b : List ℚ} {ob : ℕ}
    {v : ℚ} (h : term_mid_first l x b ob = some v) : 0 ≤ v := by
  simp only [term_mid_first, Option.bind_eq_bind, Option.bind_eq_some,
    Option.pure_def, Option.some.injEq] at h
  repeat obtain ⟨_, -, h⟩ := h
  try subst h
  rw [square]
  exact mul_self_nonneg _

lemma term_mid_mid_nonneg {l : Laplace2dMatrix} {x b : List ℚ} {ob i : ℕ}
    {v : ℚ} (h : term_mid_mid l x b ob i = some v) : 0 ≤ v := by
  simp only [term_mid_mid, Option.bind_eq_bind, Option.bind_eq_some,
    Option.pure_def, Option.some.injEq] at h
  repeat obtain ⟨_, -, h⟩ := h
  try subst h
  rw [square]
  exact mul_self_nonneg _

lemma term_mid_last_nonneg {l : Laplace2dMatrix} {x b : List ℚ} {ob : ℕ}
    {v : ℚ} (h : term_mid_last l x b ob = some v) : 0 ≤ v := by
  simp only [term_mid_last, Option.bind_eq_bind, Option.bind_eq_some,
    Option.pure_def, Option.some.injEq] at h
  repeat obtain ⟨_, -, h⟩ := h
  try subst h
  rw [square]
  exact mul_self_nonneg _

lemma term_rl_first_nonneg {l : Laplace2dMatrix} {x b : List ℚ} {v : ℚ}
    (h : term_rl_first l x b = some v) : 0 ≤ v := by
  simp only [term_rl_first, Option.bind_eq_bind, Option.bind_eq_some,
    Option.pure_def, Option.some.injEq] at h
  repeat obtain ⟨_, -, h⟩ := h
  try subst h
  rw [square]
  exact mul_self_nonneg _

lemma term_rl_mid_nonneg {l : Laplace2dMatrix} {x b : List ℚ} {i : ℕ} {v : ℚ}
    (h : term_rl_mid l x b i = some v) : 0 ≤ v := by
  simp only [term_rl_mid, Option.bind_eq_bind, Option.bind_eq_some,
    Option.pure_def, Option.some.injEq] at h
  repeat obtain ⟨_, -, h⟩ := h
  try subst h
  rw [square]
  exact mul_self_nonneg _

lemma term_rl_last_nonneg {l : Laplace2dMatrix} {x b : List ℚ} {v : ℚ}
    (h : term_rl_last l x b = some v) : 0 ≤ v := by
  simp only [term_rl_last, Option.bind_eq_bind, Option.bind_eq_some,
    Option.pure_def, Option.some.injEq] at h
  repeat obtain ⟨_, -, h⟩ := h
  try subst h
  rw [square]
  exact mul_self_nonneg _

lemma optSum_nonneg {f : ℕ → Option ℚ} (hf : ∀ i v, f i = some v → 0 ≤ v) :
    ∀ {is : List ℕ} {s : ℚ}, optSum f is = some s → 0 ≤ s
  | [], s, h => by
    simp only [optSum, Option.some.injEq] at h
    subst h
    exact le_refl 0
  | i :: is, s, h => by
    rw [optSum_cons] at h
    simp only [Option.bind_eq_some, Option.some.injEq] at h
    obtain ⟨v, hv, rest, hrest, hs⟩ := h
    have h1 := hf i v hv
    have h2 := optSum_nonneg hf hrest
    exact hs ▸ add_nonneg h1 h2

lemma midRowSum_nonneg {l : Laplace2dMatrix} {x b : List ℚ} {ob : ℕ} {v : ℚ}
    (h : midRowSum l x b ob = some v) : 0 ≤ v := by
  simp only [midRowSum, Option.bind_eq_bind, Option.bind_eq_some,
    Option.pure_def, Option.some.injEq] at h
  obtain ⟨t1, h1, t2, h2, t3, h3, hv⟩ := h
  have n1 := term_mid_first_nonneg h1
  have n2 := optSum_nonneg (fun i v hv => term_mid_mid_nonneg hv) h2
  have n3 := term_mid_last_nonneg h3
  have : (0 : ℚ) ≤ t1 + t2 + t3 := by linarith
  exact hv ▸ this

lemma kernel_nonneg {l : Laplace2dMatrix} {x b : List ℚ} {r : ℚ}
    (h : _calculate_residual_squared l x b = some r) : 0 ≤ r := by
  rw [_calculate_residual_squared] at h
  split at h
  · simp only [Option.bind_eq_bind, Option.bind_eq_some, Option.pure_def,
      Option.some.injEq] at h
    obtain ⟨t1, h1, t2, h2, t3, h3, ny2, h4, t4, h5, t5, h6, nx1, h7, t6, h8,
      t7, h9, hr⟩ := h
    have n1 := term_r1_first_nonneg h1
    have n2 := optSum_nonneg (fun i v hv => term_r1_mid_nonneg hv) h2
    have n3 := term_r1_last_nonneg h3
    have n4 := optSum_nonneg (fun i v hv => midRowSum_nonneg hv) h5
    have n5 := term_rl_first_nonneg h6
    have n6 := optSum_nonneg (fun i v hv => term_rl_mid_nonneg hv) h8
    have n7 := term_rl_last_nonneg h9
    have hsum : (0 : ℚ) ≤ t1 + t2 + t3 + t4 + t5 + t6 + t7 := by linarith
    have hcast : (0 : ℚ) ≤ (l.n : ℚ) := Nat.cast_nonneg l.n
    exact hr ▸ div_nonneg hsum hcast
  · exact absurd h (by simp)

/-! ### Scaling both buffers by k scales the reference residual by k^2 -/

lemma geti_map (a : List ℚ) (k : ℚ) (i : ℕ) :
    geti (a.map (fun v => k * v)) i = k * geti a i := by
  rw [geti, geti, List.getD_eq_getElem?_getD, List.getD_eq_getElem?_getD,
    List.getElem?_map]
  cases a[i]? <;> simp

lemma refLx_scale (l : Laplace2dMatrix) (x : List ℚ) (k : ℚ) (j : ℕ) :
    refLx l (x.map (fun v => k * v)) j = k * refLx l x j := by
  simp only [refLx, geti_map, mul_add, mul_ite, mul_zero]
  ring_nf

lemma referenceResidual_scale (l : Laplace2dMatrix) (x b : List ℚ) (k : ℚ) :
    referenceResidual l (x.map (fun v => k * v)) (b.map (fun v => k * v)) =
      k ^ 2 * referenceResidual l x b := by
  rw [referenceResidual, referenceResidual]
  have h1 : ∀ j ∈ Finset.range l.n,
      square (refLx l (x.map (fun v => k * v)) j -
        geti (b.map (fun v => k * v)) j) =
        k ^ 2 * square (refLx l x j - geti b j) := by
    intro j _
    rw [refLx_scale, geti_map, square, square]
    ring
  rw [Finset.sum_congr rfl h1, ← Finset.mul_sum, mul_div_assoc]

/-! ### Claim theorems -/

/-- C3: for positive extents `n_x`, `n_y`, the constructor
`Laplace2dMatrix::rectangular` produces `n = n_x * n_y`,
`diag = -2 * ((n_x+1)^2 + (n_y+1)^2)`, `tri_diag = (n_x+1)^2` and
`side_diag = (n_y+1)^2`. -/
theorem rectangular_coefficients (n_x n_y : ℕ) (hx : 0 < n_x) (hy : 0 < n_y) :
    (Laplace2dMatrix.rectangular n_x n_y).n = n_x * n_y ∧
    (Laplace2dMatrix.rectangular n_x n_y).diag =
      -2 * (((n_x + 1) ^ 2 + (n_y + 1) ^ 2 : ℕ) : ℚ) ∧
    (Laplace2dMatrix.rectangular n_x n_y).tri_diag =
      (((n_x + 1) ^ 2 : ℕ) : ℚ) ∧
    (Laplace2dMatrix.rectangular n_x n_y).side_diag =
      (((n_y + 1) ^ 2 : ℕ) : ℚ) := by
  refine ⟨rfl, ?_, ?_, ?_⟩ <;>
    simp only [Laplace2dMatrix.rectangular, square, pow_two]

/-- Witness for C3 at `n_x = 3`, `n_y = 2`. -/
theorem rectangular_coefficients_witness :
    (Laplace2dMatrix.rectangular 3 2).n = 3 * 2 ∧
    (Laplace2dMatrix.rectangular 3 2).diag =
      -2 * (((3 + 1) ^ 2 + (2 + 1) ^ 2 : ℕ) : ℚ) ∧
    (Laplace2dMatrix.rectangular 3 2).tri_diag = (((3 + 1) ^ 2 : ℕ) : ℚ) ∧
    (Laplace2dMatrix.rectangular 3 2).side_diag = (((2 + 1) ^ 2 : ℕ) : ℚ) :=
  rectangular_coefficients 3 2 (by norm_num) (by norm_num)

/-- C5: any violated precondition (wrong buffer length, `n` not equal to
`n_x * n_y`, or an empty grid) makes the residual engine fail at the
assertions instead of returning a numeric result. -/
theorem residual_precondition_fatal (l : Laplace2dMatrix) (x b : List ℚ)
    (h : x.length ≠ l.n ∨ b.length ≠ l.n ∨ l.n ≠ l.n_x * l.n_y ∨ l.n = 0) :
    calculate_residual_squared l x b = none := by
  rw [calculate_residual_squared, _calculate_residual_squared, if_neg]
  rintro ⟨h1, h2, h3, h4⟩
  rcases h with h | h | h | h <;> omega

/-- Witness for C5: a length-3 `x` buffer on a 2-by-2 grid. -/
theorem residual_precondition_fatal_witness :
    calculate_residual_squared (Laplace2dMatrix.rectangular 2 2)
      [1, 0, 0] [0, 0, 0, 0] = none :=
  residual_precondition_fatal _ _ _ (by decide)

/-- C6: conversion from a raw double (`From<f64> for fff`) checks
`is_finite` in its assertion; it succeeds exactly on finite values and
fails on NaN and infinities. -/
theorem fromF64_finite_check (v : F64) :
    (∃ w : fff, fff.fromF64 v = some w) ↔ v.isFinite = true := by
  cases v <;> simp [fff.fromF64, F64.isFinite]

/-- C7: the square-grid convenience entry point equals constructing
`Laplace2dMatrix::quadratic` and calling the general entry point. -/
theorem quadratic_entry_equiv (n_xy : ℕ) (x b : List ℚ)
    (hx : x.length = n_xy ^ 2) (hb : b.length = n_xy ^ 2) :
    calculate_residual_squared_quadratic n_xy x b =
      calculate_residual_squared (Laplace2dMatrix.quadratic n_xy) x b := rfl

/-- Witness for C7 at `n_xy = 2` with concrete buffers. -/
theorem quadratic_entry_equiv_witness :
    calculate_residual_squared_quadratic 2 [1, 2, 3, 4] [1, 0, 0, 1] =
      calculate_residual_squared (Laplace2dMatrix.quadratic 2)
        [1, 2, 3, 4] [1, 0, 0, 1] :=
  quadratic_entry_equiv 2 [1, 2, 3, 4] [1, 0, 0, 1] (by decide) (by decide)

/-- C9: the public tuple constructor `fff(v)` performs no finiteness
check: it is total, stores the raw value unchanged, and can hold a
non-finite value such as NaN. -/
theorem fff_tuple_constructor_unchecked :
    (∀ v : F64, (fff.mk v).val = v) ∧
      (fff.mk F64.nan).val.isFinite = false :=
  ⟨fun _ => rfl, rfl⟩

/-- C10: whenever the residual engine returns a value (preconditions hold
and every access is in bounds), that value is nonnegative. -/
theorem residual_nonnegative (l : Laplace2dMatrix) (x b : List ℚ) (r : ℚ)
    (h : calculate_residual_squared l x b = some r) : 0 ≤ r :=
  kernel_nonneg (h : _calculate_residual_squared l x b = some r)

/-- Witness for C10 on a 2-by-2 grid: the computed residual 324 is
nonnegative. -/
theorem residual_nonnegative_witness : (0 : ℚ) ≤ 324 :=
  residual_nonnegative (Laplace2dMatrix.rectangular 2 2)
    [1, 1, 1, 1] [0, 0, 0, 0] 324 (by
      norm_num [calculate_residual_squared, _calculate_residual_squared,
        term_r1_first, term_r1_mid, term_r1_last, term_mid_first,
        term_mid_mid, term_mid_last, term_rl_first, term_rl_mid,
        term_rl_last, midRowSum, optSum, sub?, arrIdx, rustRange, stepRange,
        Laplace2dMatrix.rectangular, square, List.range',
        Option.bind_eq_bind, Option.some_bind])

/-- C1 counterexample: on the 1-by-1 grid (positive extents, all four
assertions pass) the kernel does not return the claimed reference value:
it reads `x[n_x]` out of bounds and underflows `n_x-1-1`, so the run
fails instead of producing `(1/n) * sum ((Lx)_i - b_i)^2`. -/
theorem residual_one_by_one_mismatch :
    _calculate_residual_squared (Laplace2dMatrix.rectangular 1 1)
      [(1 : ℚ)] [(0 : ℚ)] ≠
      some (referenceResidual (Laplace2dMatrix.rectangular 1 1) [1] [0]) := by
  have h : _calculate_residual_squared (Laplace2dMatrix.rectangular 1 1)
      [(1 : ℚ)] [(0 : ℚ)] = none := by
    norm_num [_calculate_residual_squared, term_r1_first, term_r1_mid,
      term_r1_last, term_mid_first, term_mid_mid, term_mid_last,
      term_rl_first, term_rl_mid, term_rl_last, midRowSum, optSum, sub?,
      arrIdx, rustRange, stepRange, Laplace2dMatrix.rectangular, square,
      List.range', Option.bind_eq_bind, Option.some_bind, Option.none_bind]
  rw [h]
  simp

/-- C1 (amended: extents at least 2; a 1-wide or 1-tall grid makes the
kernel read out of bounds): for every grid with `n_x ≥ 2`, `n_y ≥ 2`,
`n = n_x * n_y` and buffers of length `n`, `calculate_residual_squared`
(and the underlying kernel) returns `(1/n) * Σᵢ ((Lx)ᵢ - bᵢ)²`, with
`(Lx)ᵢ` assembled from `diag`, `tri_diag` and `side_diag` exactly as the
position of `i` in the grid dictates (`referenceResidual`). -/
theorem residual_matches_reference (l : Laplace2dMatrix) (x b : List ℚ)
    (h2x : 2 ≤ l.n_x) (h2y : 2 ≤ l.n_y) (hn : l.n = l.n_x * l.n_y)
    (hx : x.length = l.n) (hb : b.length = l.n) :
    calculate_residual_squared l x b = some (referenceResidual l x b) ∧
      _calculate_residual_squared l x b = some (referenceResidual l x b) :=
  ⟨kernel_eq_ref l x b h2x h2y hn hx hb, kernel_eq_ref l x b h2x h2y hn hx hb⟩

/-- Witness for C1 (amended) on a concrete 3-by-2 grid. -/
theorem residual_matches_reference_witness :
    calculate_residual_squared (Laplace2dMatrix.rectangular 3 2)
      [1, 2, 3, 4, 5, 6] [1, 1, 2, 2, 3, 3] =
      some (referenceResidual (Laplace2dMatrix.rectangular 3 2)
        [1, 2, 3, 4, 5, 6] [1, 1, 2, 2, 3, 3]) :=
  (residual_matches_reference _ _ _ (by decide) (by decide) (by decide)
    (by decide) (by decide)).1

/-- C2 counterexample: on the 1-by-1 grid all stated preconditions hold
(`len(x) = len(b) = n`, `n = n_x * n_y`, `n > 0`), yet the computation
fails: the very first point reads `x[1 + n_x - 1] = x[1]`, which is out of
bounds for the length-1 buffer, so out-of-bounds accesses are attempted
under the stated preconditions. -/
theorem residual_one_by_one_out_of_bounds :
    ((Laplace2dMatrix.rectangular 1 1).n = ([(1 : ℚ)]).length ∧
      (Laplace2dMatrix.rectangular 1 1).n = ([(1 : ℚ)]).length ∧
      (Laplace2dMatrix.rectangular 1 1).n =
        (Laplace2dMatrix.rectangular 1 1).n_x *
          (Laplace2dMatrix.rectangular 1 1).n_y ∧
      0 < (Laplace2dMatrix.rectangular 1 1).n) ∧
    _calculate_residual_squared (Laplace2dMatrix.rectangular 1 1)
      [(1 : ℚ)] [(1 : ℚ)] = none := by
  constructor
  · decide
  · norm_num [_calculate_residual_squared, term_r1_first, term_r1_mid,
      term_r1_last, term_mid_first, term_mid_mid, term_mid_last,
      term_rl_first, term_rl_mid, term_rl_last, midRowSum, optSum, sub?,
      arrIdx, rustRange, stepRange, Laplace2dMatrix.rectangular, square,
      List.range', Option.bind_eq_bind, Option.some_bind, Option.none_bind]

/-- C2 (amended: extents at least 2): under the assertions plus
`n_x ≥ 2` and `n_y ≥ 2`, every buffer access of the kernel is in bounds
and no index subtraction underflows — in the model, the kernel completes
with a value (`arrIdx` fails exactly on an out-of-bounds access and
`sub?` exactly on underflow, and any failure propagates to `none`). -/
theorem residual_accesses_in_bounds (l : Laplace2dMatrix) (x b : List ℚ)
    (h2x : 2 ≤ l.n_x) (h2y : 2 ≤ l.n_y) (hn : l.n = l.n_x * l.n_y)
    (hx : x.length = l.n) (hb : b.length = l.n) :
    ∃ r, _calculate_residual_squared l x b = some r :=
  ⟨referenceResidual l x b, kernel_eq_ref l x b h2x h2y hn hx hb⟩

/-- Witness for C2 (amended) on a concrete 2-by-3 grid. -/
theorem residual_accesses_in_bounds_witness :
    ∃ r, _calculate_residual_squared (Laplace2dMatrix.rectangular 2 3)
      [1, 0, 2, 0, 3, 0] [0, 1, 0, 2, 0, 3] = some r :=
  residual_accesses_in_bounds _ _ _ (by decide) (by decide) (by decide)
    (by decide) (by decide)

/-- C4: horizontal (`tri_diag`) terms never wrap between rows — on the
valid domain the kernel computes exactly `referenceResidual`, whose
horizontal terms are guarded by the column predicates `j % n_x ≠ 0` and
`j % n_x ≠ n_x - 1`; and on the 2-by-2 grid each of the four points uses
exactly its corner neighbor set (diagonal plus one horizontal plus one
vertical neighbor, coefficients `diag = -36`, `tri_diag = 9`,
`side_diag = 9`). -/
theorem residual_no_row_wraparound :
    (∀ (l : Laplace2dMatrix) (x b : List ℚ), 2 ≤ l.n_x → 2 ≤ l.n_y →
        l.n = l.n_x * l.n_y → x.length = l.n → b.length = l.n →
        calculate_residual_squared l x b = some (referenceResidual l x b)) ∧
    (∀ x0 x1 x2 x3 b0 b1 b2 b3 : ℚ,
      calculate_residual_squared (Laplace2dMatrix.rectangular 2 2)
          [x0, x1, x2, x3] [b0, b1, b2, b3] =
        some ((square (x0 * (-36) + x1 * 9 + x2 * 9 - b0) +
            square (x1 * (-36) + x0 * 9 + x3 * 9 - b1) +
            square (x2 * (-36) + x3 * 9 + x0 * 9 - b2) +
            square (x3 * (-36) + x2 * 9 + x1 * 9 - b3)) / 4)) := by
  constructor
  · exact fun l x b h2x h2y hn hx hb => kernel_eq_ref l x b h2x h2y hn hx hb
  · intro x0 x1 x2 x3 b0 b1 b2 b3
    norm_num [calculate_residual_squared, _calculate_residual_squared,
      term_r1_first, term_r1_mid, term_r1_last, term_mid_first, term_mid_mid,
      term_mid_last, term_rl_first, term_rl_mid, term_rl_last, midRowSum,
      optSum, sub?, arrIdx, rustRange, stepRange, Laplace2dMatrix.rectangular,
      square, List.range', List.get?, Option.bind_eq_bind, Option.some_bind,
      Option.some.injEq]
    ring_nf

/-- Witness for C4 (first part) on a concrete 2-by-3 grid. -/
theorem residual_no_row_wraparound_witness :
    calculate_residual_squared (Laplace2dMatrix.rectangular 2 3)
      [1, 1, 2, 2, 3, 3] [1, 0, 1, 0, 1, 0] =
      some (referenceResidual (Laplace2dMatrix.rectangular 2 3)
        [1, 1, 2, 2, 3, 3] [1, 0, 1, 0, 1, 0]) :=
  residual_no_row_wraparound.1 _ _ _ (by decide) (by decide) (by decide)
    (by decide) (by decide)

/-- C8: on the valid domain, scaling both buffers by a nonzero constant
`k` scales the residual by `k^2`. -/
theorem residual_scaling (l : Laplace2dMatrix) (x b : List ℚ) (k r : ℚ)
    (h2x : 2 ≤ l.n_x) (h2y : 2 ≤ l.n_y) (hn : l.n = l.n_x * l.n_y)
    (hx : x.length = l.n) (hb : b.length = l.n) (hk : k ≠ 0)
    (hr : calculate_residual_squared l x b = some r) :
    calculate_residual_squared l (x.map (fun v => k * v))
      (b.map (fun v => k * v)) = some (k ^ 2 * r) := by
  have h1 : _calculate_residual_squared l x b =
      some (referenceResidual l x b) := kernel_eq_ref l x b h2x h2y hn hx hb
  have hrr : referenceResidual l x b = r := by
    have h2 : some (referenceResidual l x b) = some r := by
      rw [← h1]
      exact hr
    exact Option.some_inj.mp h2
  have h3 := kernel_eq_ref l (x.map (fun v => k * v)) (b.map (fun v => k * v))
    h2x h2y hn (by rw [List.length_map, hx]) (by rw [List.length_map, hb])
  rw [calculate_residual_squared, h3, referenceResidual_scale, hrr]

/-- Witness for C8: scaling by `k = 3` on a 2-by-2 grid turns residual 1
into `3^2 * 1`. -/
theorem residual_scaling_witness :
    calculate_residual_squared (Laplace2dMatrix.rectangular 2 2)
      (([0, 0, 0, 0] : List ℚ).map (fun v => 3 * v))
      (([1, 1, 1, 1] : List ℚ).map (fun v => 3 * v)) = some (3 ^ 2 * 1) :=
  residual_scaling _ _ _ 3 1 (by decide) (by decide) (by decide) (by decide)
    (by decide) (by norm_num) (by
      norm_num [calculate_residual_squared, _calculate_residual_squared,
        term_r1_first, term_r1_mid, term_r1_last, term_mid_first,
        term_mid_mid, term_mid_last, term_rl_first, term_rl_mid,
        term_rl_last, midRowSum, optSum, sub?, arrIdx, rustRange, stepRange,
        Laplace2dMatrix.rectangular, square, List.range',
        Option.bind_eq_bind, Option.some_bind])
